import Mathlib

/-!
Verification of the service orchestration layer of the home-dashboard
repository: a shallow embedding of `src/lib/BaseService.ts` (generic
caching / retry / stale-fallback primitive) and `src/lib/dataBuilder.ts`
(aggregation policy), with theorems about the testable properties of the
specification.

Modelling conventions:
- Timestamps (`Date.now()`) are read from an explicit clock `c : Nat → Nat`
  indexed by the number of clock reads performed so far; each read
  advances the index.  Time arithmetic is done in `Int`, as JS numbers
  hold integer millisecond values here.
- JS truthiness is modelled explicitly where the source relies on it:
  a number is falsy iff it is 0, a string is falsy iff it is empty, and
  `null`/`undefined` is `Option.none`.
- `fetchData` and `mapToDashboard` are abstract operations supplied by
  subclasses; they are modelled as an oracle `fetch : C → Nat → Except String T`
  giving the (already transformed) outcome of the n-th attempt.  A thrown
  error is `Except.error message`.
- The persisted state document is restricted to the slots owned by one
  service (its `service_cache` and `service_status` entries), since the
  source only ever reads and writes its own `cacheKey` slot.
-/

namespace Dash

/-- JS truthiness of a nullable integer: null and 0 are falsy. -/
def truthyLat : Option Int → Bool
  | none => false
  | some n => decide (n ≠ 0)

/-- JS truthiness of a nullable string: null and the empty string are falsy. -/
def truthyStr : Option String → Bool
  | none => false
  | some s => decide (s ≠ "")

/-- ServiceState enum from `src/lib/types.ts`. -/
inductive ServiceState
  | unknown
  | healthy
  | degraded
  | unhealthy
  | disabled
  | pending
deriving DecidableEq, Repr

/-- The `source` field of a ServiceDataResult. -/
inductive Source
  | cache
  | api
  | stale_cache
  | disabled
deriving DecidableEq, Repr

/-- One entry of the `service_cache` map: `{ data, fetchedAt, signature }`. -/
structure CacheEntry (T : Type) where
  data : T
  fetchedAt : Nat
  signature : Option String
deriving DecidableEq, Repr

/-- The in-memory `this.status` record of BaseService, also the shape
persisted by `saveStatus` (only state, latency, error). -/
structure StatusRec where
  state : ServiceState
  latency : Option Int
  error : Option String
deriving DecidableEq, Repr

/-- The slice of the persisted state document owned by one service
(its `service_cache` and `service_status` slots), together with the
clock-read index. -/
structure World (T : Type) where
  cache : Option (CacheEntry T)
  statusStore : Option StatusRec
  clockIdx : Nat
deriving Repr

/-- Advance the clock by one read. -/
def tick (w : World T) : World T := { w with clockIdx := w.clockIdx + 1 }

/-- The full ServiceStatus returned by `getStatus`. -/
structure ServiceStatus where
  name : String
  isEnabled : Bool
  state : ServiceState
  cacheTTL : Nat
  fetchedAt : Option Nat
  latency : Option Int
  error : Option String
deriving DecidableEq, Repr

/-- An instantiated BaseService subclass: configuration fields of the
instance plus the abstract operations provided by the subclass.
`fetch cfg n` is the outcome of `mapToDashboard (await fetchData cfg) cfg`
on the n-th attempt (0-indexed); `truthy` is JS truthiness of a cached
value of type `T`. -/
structure Svc (T C : Type) where
  name : String
  cacheTTL : Nat
  retryAttempts : Nat
  retryCooldown : Nat
  isEnabled : Bool
  truthy : T → Bool
  fetch : C → Nat → Except String T
  getCacheSignature : C → Option String

/-- `BaseService.getCache(allowStale, signature)`: returns null when the
entry is missing, its data is falsy, or a truthy requested signature does
not match; returns stale data when `allowStale`; otherwise checks
`Date.now() - fetchedAt < cacheTTL` (consuming one clock read). -/
def getCache (truthy : T → Bool) (cacheTTL : Nat) (c : Nat → Nat)
    (allowStale : Bool) (signature : Option String) (w : World T) :
    Option T × World T :=
  match w.cache with
  | none => (none, w)
  | some entry =>
    if truthy entry.data = false then (none, w)
    else if truthyStr signature = true ∧ entry.signature ≠ signature then (none, w)
    else if allowStale then (some entry.data, w)
    else if ((c w.clockIdx : Int) - (entry.fetchedAt : Int)) < (cacheTTL : Int) then
      (some entry.data, tick w)
    else (none, tick w)

/-- `BaseService.setCache(data, signature)`: stamps the entry with
`Date.now()` (one clock read). -/
def setCache (c : Nat → Nat) (data : T) (signature : Option String)
    (w : World T) : World T :=
  { tick w with
    cache := some { data := data, fetchedAt := c w.clockIdx, signature := signature } }

/-- The fresh in-memory status a BaseService is constructed with. -/
def freshStatus : StatusRec := { state := .unknown, latency := none, error := none }

/-- `BaseService.loadStatus()`: merges the saved status over the current
in-memory one using JS `||`, so a saved latency of 0 and a saved empty
error string are dropped (state enum strings are always truthy). -/
def loadStatus (mem : StatusRec) (saved : Option StatusRec) : StatusRec :=
  match saved with
  | none => mem
  | some s =>
    { state := s.state
      latency := if truthyLat s.latency then s.latency else mem.latency
      error := if truthyStr s.error then s.error else mem.error }

/-- `BaseService.saveStatus()`: persists `{state, latency, error}`. -/
def saveStatus (st : StatusRec) (w : World T) : World T :=
  { w with statusStore := some { state := st.state, latency := st.latency, error := st.error } }

/-- `BaseService.getStatus()`: reloads the saved status over the in-memory
one, recomputes enablement, reads `cache?.fetchedAt || null` (0 is falsy),
and resolves an `unknown` state to disabled / pending. -/
def getStatus (svc : Svc T C) (mem : StatusRec) (w : World T) : ServiceStatus :=
  let st := loadStatus mem w.statusStore
  let fetchedAt : Option Nat :=
    match w.cache with
    | some entry => if entry.fetchedAt ≠ 0 then some entry.fetchedAt else none
    | none => none
  let state :=
    if st.state = ServiceState.unknown then
      if svc.isEnabled = false then ServiceState.disabled
      else if fetchedAt = none then ServiceState.pending
      else ServiceState.unknown
    else st.state
  { name := svc.name, isEnabled := svc.isEnabled, state := state,
    cacheTTL := svc.cacheTTL, fetchedAt := fetchedAt,
    latency := st.latency, error := st.error }

/-- Overall outcome of one `getData` call: the resolved or rejected
promise value, the final persisted state, and how many times `fetchData`
was invoked. -/
structure GetDataOut (T : Type) where
  result : Except String (Option T × Source × ServiceStatus)
  world : World T
  fetchCalls : Nat
deriving Repr

/-- The code after the retry loop of `getData`: all attempts failed, so
try the stale cache (signature still checked, TTL ignored); on a stale
hit set state degraded and keep the loaded latency, otherwise persist
unhealthy with null latency and rethrow the last error.  `lastErr = none`
only when `retryAttempts = 0`, where the JS non-null assertion
`lastError!.message` crashes. -/
def afterLoop (svc : Svc T C) (c : Nat → Nat) (sig : Option String)
    (st0 : StatusRec) (calls : Nat) (lastErr : Option String) (w : World T) :
    GetDataOut T :=
  match lastErr with
  | none =>
    { result := .error "TypeError: lastError is undefined", world := w, fetchCalls := calls }
  | some msg =>
    match getCache svc.truthy svc.cacheTTL c true sig w with
    | (some staleData, w1) =>
      let st : StatusRec := { st0 with state := .degraded, error := some msg }
      let w2 := saveStatus st w1
      { result := .ok (some staleData, .stale_cache, getStatus svc st w2),
        world := w2, fetchCalls := calls }
    | (none, w1) =>
      let st : StatusRec := { state := .unhealthy, latency := none, error := some msg }
      let w2 := saveStatus st w1
      { result := .error msg, world := w2, fetchCalls := calls }

/-- The retry loop of `getData`, with `fuel` remaining iterations and
`attempt` the 0-indexed current attempt.  Each attempt reads the clock
for `apiCallStart`; a successful attempt reads it again for the latency,
caches the data (a third read), persists a healthy status and resolves
with `source = api`.  Backoff sleeps do not touch the modelled state. -/
def fetchLoop (svc : Svc T C) (c : Nat → Nat) (cfg : C) (sig : Option String)
    (st0 : StatusRec) :
    Nat → Nat → Option String → World T → GetDataOut T
  | 0, attempt, lastErr, w => afterLoop svc c sig st0 attempt lastErr w
  | fuel+1, attempt, _lastErr, w =>
    let apiCallStart := c w.clockIdx
    let w1 := tick w
    match svc.fetch cfg attempt with
    | .error e => fetchLoop svc c cfg sig st0 fuel (attempt+1) (some e) w1
    | .ok dashboardData =>
      let apiLatency : Int := (c w1.clockIdx : Int) - (apiCallStart : Int)
      let w2 := tick w1
      let w3 := setCache c dashboardData sig w2
      let st : StatusRec := { state := .healthy, latency := some apiLatency, error := none }
      let w4 := saveStatus st w3
      { result := .ok (some dashboardData, .api, getStatus svc st w4),
        world := w4, fetchCalls := attempt + 1 }

/-- `BaseService.getData(config)`: compute the signature, load the saved
status, short-circuit when disabled, then fresh cache, then the retry
loop with stale fallback. -/
def getData (svc : Svc T C) (c : Nat → Nat) (cfg : C) (w0 : World T) :
    GetDataOut T :=
  let cacheSignature := svc.getCacheSignature cfg
  let st0 := loadStatus freshStatus w0.statusStore
  if svc.isEnabled = false then
    let st := { st0 with state := ServiceState.disabled }
    let w := saveStatus st w0
    { result := .ok (none, .disabled, getStatus svc st w), world := w, fetchCalls := 0 }
  else
    match getCache svc.truthy svc.cacheTTL c false cacheSignature w0 with
    | (some cached, w1) =>
      let st := { st0 with state := ServiceState.healthy }
      let w := saveStatus st w1
      { result := .ok (some cached, .cache, getStatus svc st w), world := w, fetchCalls := 0 }
    | (none, w1) => fetchLoop svc c cfg cacheSignature st0 svc.retryAttempts 0 none w1

/-- `options.x || default` for a numeric option: 0 is falsy. -/
def orDefaultNat : Option Nat → Nat → Nat
  | some n, d => if n ≠ 0 then n else d
  | none, d => d

/-- `options.x || default` for a string option: the empty string is falsy. -/
def orDefaultStr : Option String → String → String
  | some s, d => if s ≠ "" then s else d
  | none, d => d

/-- The `Partial<BaseServiceOptions>` argument of the constructor. -/
structure BaseServiceOptions where
  name : Option String := none
  cacheKey : Option String := none
  cacheTTL : Option Nat := none
  retryAttempts : Option Nat := none
  retryCooldown : Option Nat := none

/-- The configuration fields the constructor sets. -/
structure BaseServiceFields where
  name : String
  cacheKey : String
  cacheTTL : Nat
  retryAttempts : Nat
  retryCooldown : Nat
deriving DecidableEq, Repr

/-- The BaseService constructor: every field defaults through JS `||`. -/
def mkBaseService (options : BaseServiceOptions) : BaseServiceFields :=
  let name := orDefaultStr options.name "UnnamedService"
  { name := name
    cacheKey := orDefaultStr options.cacheKey name.toLower
    cacheTTL := orDefaultNat options.cacheTTL (15 * 60 * 1000)
    retryAttempts := orDefaultNat options.retryAttempts 3
    retryCooldown := orDefaultNat options.retryCooldown 1000 }

/-- `BaseService.getBackoffDelay(attempt)`: exponential backoff with a
jitter drawn from [0, 200) and a 10000 ms ceiling.  `getData` invokes it
as `getBackoffDelay(attempt - 1)` before the retry numbered `attempt`. -/
def getBackoffDelay (retryCooldown : Nat) (jitter : ℚ) (attempt : Nat) : ℚ :=
  min ((retryCooldown : ℚ) * 2 ^ attempt + jitter) 10000

/-! The aggregation layer, `src/lib/dataBuilder.ts`.  The `daily_highs`
map of the persisted state is modelled as an association list without
duplicate keys. -/

/-- JS truthiness of a nullable number with fractional values. -/
def truthyQ : Option ℚ → Bool
  | none => false
  | some v => decide (v ≠ 0)

/-- Read `dailyHighs[k]`. -/
def lookupHigh (m : List (String × ℚ)) (k : String) : Option ℚ :=
  (m.find? (fun p => p.1 == k)).map (fun p => p.2)

/-- The assignment `dailyHighs[k] = v` on a JS object. -/
def setHigh (m : List (String × ℚ)) (k : String) (v : ℚ) : List (String × ℚ) :=
  if m.any (fun p => p.1 == k) then
    m.map (fun p => if p.1 == k then (p.1, v) else p)
  else m ++ [(k, v)]

/-- Insert a key into a lexicographically descending list of keys. -/
def insertDesc (k : String) : List String → List String
  | [] => [k]
  | x :: xs => if decide (x < k) then k :: x :: xs else x :: insertDesc k xs

/-- `Object.keys(m).sort().reverse()`: keys in descending lexicographic
order (date strings compare like dates). -/
def sortDesc (ks : List String) : List String := ks.foldr insertDesc []

/-- Keep only the last 3 calendar days: the 3 lexicographically largest
date keys and their values. -/
def trimRecent (m : List (String × ℚ)) : List (String × ℚ) :=
  let recentDates := (sortDesc (m.map (fun p => p.1))).take 3
  recentDates.filterMap (fun k => (lookupHigh m k).map (fun v => (k, v)))

/-- `computeTempComparison(todayHigh)` from `src/lib/dataBuilder.ts`,
with the computed local date strings passed in explicitly.  Returns the
comparison string (or null) and the updated `daily_highs` map.  Note the
guard `if (!dailyHighs[todayStr])` treats a stored 0 as absent, and the
comparison subtracts the stored yesterday value from the **input**
`todayHigh`. -/
def computeTempComparison (todayStr yesterdayStr : String) (todayHigh : Option ℚ)
    (dailyHighs : List (String × ℚ)) : Option String × List (String × ℚ) :=
  match todayHigh with
  | none => (none, dailyHighs)
  | some todayV =>
    if truthyQ (lookupHigh dailyHighs todayStr) = false then
      let updated := setHigh dailyHighs todayStr todayV
      (none, trimRecent updated)
    else
      match lookupHigh dailyHighs yesterdayStr with
      | none => (none, dailyHighs)
      | some yesterdayV =>
        let diff := todayV - yesterdayV
        (some (if |diff| < 1 then "Same as yesterday"
               else if diff ≥ 6 then "Much warmer than yesterday"
               else if diff > 0 then "Warmer than yesterday"
               else if diff ≤ -6 then "Much cooler than yesterday"
               else "Cooler than yesterday"),
         dailyHighs)

/-- A forecast day as read by the aggregator (only the field it uses). -/
structure ForecastDay where
  high : Option ℚ

/-- A weather location as read by the aggregator. -/
structure WLocation where
  forecast : List ForecastDay

/-- The weather payload as read by the aggregator.  The purely numeric
fields (current conditions, wind, precipitation) are consumed by float
glue helpers that do not influence control flow and are not modelled. -/
structure WeatherData where
  locations : List WLocation

/-- The LLM insights record (only the field the aggregator inspects). -/
structure LLMInsights where
  daily_summary : String
deriving DecidableEq, Repr

/-- Provenance of the final `daily_summary` field (`data.llm_source`). -/
inductive LlmSource
  | cache
  | api
  | stale_cache
  | disabled
  | static_fallback
deriving DecidableEq, Repr

/-- `data.llm_source = result.source` embeds a ServiceDataResult source. -/
def Source.toLlmSource : Source → LlmSource
  | .cache => .cache
  | .api => .api
  | .stale_cache => .stale_cache
  | .disabled => .disabled

/-- Inputs of one `buildDashboardData` run.  The three service calls are
external collaborators (concrete BaseService subclasses doing real I/O),
so their outcomes are oracles; `llmWorld` is the LLM service state slice
used by the `llmService.getCache(true)` fallback; `staticSummary` is the
`daily_summary` produced by `buildStaticDescription`, a pure float helper
in `src/lib/weatherUtils.ts`. -/
structure BDInputs (E : Type) where
  weatherResult : Except String (WeatherData × ServiceStatus)
  calendarResult : Except String (Option (List E) × ServiceStatus)
  calendarStatusOnError : ServiceStatus
  llmResult : Except String (Option LLMInsights × Source × ServiceStatus)
  llmStatusOnError : ServiceStatus
  llmWorld : World (Option LLMInsights)
  staticSummary : String
  todayStr : String
  yesterdayStr : String
  dailyHighs : List (String × ℚ)

/-- The fields of the snapshot the aggregation claims are about, plus the
updated `daily_highs` map. -/
structure BDResult (E : Type) where
  temp_comparison : Option String
  calendar_events : List E
  daily_summary : String
  llm_source : LlmSource
  weatherStatus : ServiceStatus
  llmStatus : ServiceStatus
  calendarStatus : ServiceStatus

/-- Leading-whitespace stripper over the character list of a string. -/
def dropLeadingWS : List Char → List Char
  | [] => []
  | ch :: t => if ch.isWhitespace then dropLeadingWS t else ch :: t

/-- JS `String.prototype.trim()`: strip leading and trailing whitespace.
Defined by structural recursion so that concrete runs evaluate. -/
def jsTrim (s : String) : String :=
  { data := (dropLeadingWS (dropLeadingWS s.data).reverse).reverse }

/-- The LLM fallback chain of `buildDashboardData`: stale LLM cache via
`llmService.getCache(true)` (no signature, TTL ignored on the stale path,
so the TTL and clock arguments are never consulted), then the static
description.  An LLMInsights object is truthy; its `daily_summary` string
is checked for truthiness. -/
def llmFallback (inp : BDInputs E) (st : ServiceStatus) :
    String × LlmSource × ServiceStatus :=
  match (getCache (fun d => d.isSome) 0 (fun _ => 0) true none inp.llmWorld).1 with
  | some (some i) =>
    if i.daily_summary ≠ "" then (jsTrim i.daily_summary, .stale_cache, st)
    else (inp.staticSummary, .static_fallback, st)
  | _ => (inp.staticSummary, .static_fallback, st)

/-- The value, provenance tag and status of the `daily_summary` field:
valid insights (a truthy summary whose trim is nonempty) use the LLM
result and its source tag; anything else, including a thrown LLM call,
runs the fallback chain. -/
def llmTriple (inp : BDInputs E) : String × LlmSource × ServiceStatus :=
  match inp.llmResult with
  | .ok (insights, src, st) =>
    match insights with
    | some i =>
      if i.daily_summary ≠ "" ∧ (jsTrim i.daily_summary).length > 0 then
        (jsTrim i.daily_summary, Source.toLlmSource src, st)
      else llmFallback inp st
    | none => llmFallback inp st
  | .error _ => llmFallback inp inp.llmStatusOnError

/-- `buildDashboardData` from `src/lib/dataBuilder.ts`: weather is
required (its failure rethrows with an identifying message), calendar and
LLM are optional (their failures are caught); valid LLM insights tag
`llm_source` with `result.source`, otherwise the fallback chain runs. -/
def buildDashboardData (inp : BDInputs E) :
    Except String (BDResult E × List (String × ℚ)) :=
  match inp.weatherResult with
  | .error msg => .error ("Weather API unavailable: " ++ msg)
  | .ok (weatherData, weatherStatus) =>
    let calPair :=
      match inp.calendarResult with
      | .ok (d, st) => (d.getD [], st)
      | .error _ => ([], inp.calendarStatusOnError)
    let todayHigh :=
      ((weatherData.locations.head?.bind (fun l => l.forecast.head?)).bind
        (fun f => f.high))
    let tc := computeTempComparison inp.todayStr inp.yesterdayStr todayHigh inp.dailyHighs
    .ok ({ temp_comparison := tc.1
           calendar_events := calPair.1
           daily_summary := (llmTriple inp).1
           llm_source := (llmTriple inp).2.1
           weatherStatus := weatherStatus
           llmStatus := (llmTriple inp).2.2
           calendarStatus := calPair.2 }, tc.2)

/-! Theorems about the claims. -/

/-- C10: constructing a BaseService with the falsy option value 0
silently substitutes the defaults: retryAttempts becomes 3, cacheTTL
becomes 900000 ms and retryCooldown becomes 1000 ms, so zero retries or
a zero TTL cannot be configured through the constructor. -/
theorem c10_constructor_zero_options_become_defaults :
    (mkBaseService { retryAttempts := some 0, cacheTTL := some 0,
                     retryCooldown := some 0 }).retryAttempts = 3 ∧
    (mkBaseService { retryAttempts := some 0, cacheTTL := some 0,
                     retryCooldown := some 0 }).cacheTTL = 900000 ∧
    (mkBaseService { retryAttempts := some 0, cacheTTL := some 0,
                     retryCooldown := some 0 }).retryCooldown = 1000 := by
  refine ⟨rfl, rfl, rfl⟩

/-- C5 counterexample: with retryCooldown = 20000 (a value the
constructor accepts unchanged), the delay before the second try (n = 1,
code argument attempt - 1 = 0) with jitter 0 is capped to 10000 ms,
which is strictly below the claimed lower bound
retryCooldown * 2 ^ (n - 1) = 20000 ms.  So the delay does not always
lie in the claimed interval. -/
theorem c5_counterexample_cap_below_lower_bound :
    (mkBaseService { retryCooldown := some 20000 }).retryCooldown = 20000 ∧
    getBackoffDelay 20000 0 (1 - 1) = 10000 ∧
    ¬ ((20000 : ℚ) * 2 ^ ((1 : ℕ) - 1) ≤ getBackoffDelay 20000 0 (1 - 1)) := by
  refine ⟨rfl, ?_, ?_⟩
  · unfold getBackoffDelay
    norm_num
  · unfold getBackoffDelay
    norm_num

/-- C5 (amended): for every retry attempt n ≥ 1 and every jitter in
[0, 200), the backoff delay min(retryCooldown * 2 ^ (n-1) + jitter, 10000)
never exceeds 10000 ms, and **whenever the uncapped base delay
retryCooldown * 2 ^ (n-1) is at most 10000 ms** the delay lies in
[retryCooldown * 2 ^ (n-1), retryCooldown * 2 ^ (n-1) + 200]. -/
theorem c5_backoff_delay_bounds (retryCooldown n : ℕ) (jitter : ℚ)
    (_hn : 1 ≤ n) (hj0 : 0 ≤ jitter) (hj : jitter < 200)
    (hbase : (retryCooldown : ℚ) * 2 ^ (n - 1) ≤ 10000) :
    (retryCooldown : ℚ) * 2 ^ (n - 1) ≤ getBackoffDelay retryCooldown jitter (n - 1) ∧
    getBackoffDelay retryCooldown jitter (n - 1) ≤ (retryCooldown : ℚ) * 2 ^ (n - 1) + 200 ∧
    getBackoffDelay retryCooldown jitter (n - 1) ≤ 10000 := by
  unfold getBackoffDelay
  refine ⟨le_min (by linarith) hbase, ?_, min_le_right _ _⟩
  calc min ((retryCooldown : ℚ) * 2 ^ (n - 1) + jitter) 10000
      ≤ (retryCooldown : ℚ) * 2 ^ (n - 1) + jitter := min_le_left _ _
    _ ≤ (retryCooldown : ℚ) * 2 ^ (n - 1) + 200 := by linarith

/-- C5 witness: the amended bounds at retryCooldown = 1000, n = 2,
jitter = 100 (the default cooldown, the sleep before the third try). -/
theorem c5_backoff_delay_bounds_witness :
    (1 ≤ 2) ∧ ((0 : ℚ) ≤ 100) ∧ ((100 : ℚ) < 200) ∧
    (((1000 : ℕ) : ℚ) * 2 ^ (2 - 1) ≤ 10000) ∧
    (((1000 : ℕ) : ℚ) * 2 ^ (2 - 1) ≤ getBackoffDelay 1000 100 (2 - 1) ∧
     getBackoffDelay 1000 100 (2 - 1) ≤ ((1000 : ℕ) : ℚ) * 2 ^ (2 - 1) + 200 ∧
     getBackoffDelay 1000 100 (2 - 1) ≤ 10000) :=
  ⟨by norm_num, by norm_num, by norm_num, by norm_num,
   c5_backoff_delay_bounds 1000 2 100 (by norm_num) (by norm_num) (by norm_num)
     (by norm_num)⟩

/-- C8 counterexample: with stored highs {today ↦ 0, yesterday ↦ 5} and
input 0 for today, the key for today is present with value t = 0 and
yesterday holds y = 5, so the claim demands the comparison
"Cooler than yesterday" (t - y = -5); but the guard
`if (!dailyHighs[todayStr])` treats the stored 0 as absent, so the code
re-stores the value and returns null. -/
theorem c8_counterexample_stored_zero_treated_as_absent :
    lookupHigh [("2026-10-12", 0), ("2026-10-11", 5)] "2026-10-12" = some 0 ∧
    lookupHigh [("2026-10-12", 0), ("2026-10-11", 5)] "2026-10-11" = some 5 ∧
    (computeTempComparison "2026-10-12" "2026-10-11" (some 0)
      [("2026-10-12", 0), ("2026-10-11", 5)]).1 = none ∧
    (none : Option String) ≠ some "Cooler than yesterday" := by
  refine ⟨rfl, rfl, rfl, by decide⟩

/-- C8 (amended): when the key for today is stored with a **nonzero**
value t and the run is given that same value t, the comparison against a
stored yesterday value y classifies t - y with dead-band 1 and strong
threshold 6; when the key for today is absent **or stored as 0**, the
value is stored, the map is trimmed to the 3 most recent date keys and
the result is null; when yesterday is absent the result is null. -/
theorem c8_temp_comparison (todayStr yesterdayStr : String) (t y : ℚ)
    (m : List (String × ℚ)) :
    (lookupHigh m todayStr = some t → t ≠ 0 →
      lookupHigh m yesterdayStr = some y →
      computeTempComparison todayStr yesterdayStr (some t) m =
        (some (if |t - y| < 1 then "Same as yesterday"
               else if t - y ≥ 6 then "Much warmer than yesterday"
               else if t - y > 0 then "Warmer than yesterday"
               else if t - y ≤ -6 then "Much cooler than yesterday"
               else "Cooler than yesterday"), m)) ∧
    ((lookupHigh m todayStr = none ∨ lookupHigh m todayStr = some 0) →
      computeTempComparison todayStr yesterdayStr (some t) m =
        (none, trimRecent (setHigh m todayStr t))) ∧
    (lookupHigh m todayStr = some t → t ≠ 0 →
      lookupHigh m yesterdayStr = none →
      computeTempComparison todayStr yesterdayStr (some t) m = (none, m)) := by
  refine ⟨?_, ?_, ?_⟩
  · intro ht htz hy
    simp only [computeTempComparison, ht, hy, truthyQ, decide_eq_false_iff_not,
      ne_eq, htz, not_false_eq_true]
    simp
  · intro h
    rcases h with h | h <;>
      simp only [computeTempComparison, h, truthyQ, decide_eq_false_iff_not, ne_eq,
        not_true_eq_false] <;> simp
  · intro ht htz hy
    simp only [computeTempComparison, ht, hy, truthyQ, decide_eq_false_iff_not,
      ne_eq, htz, not_false_eq_true]
    simp

/-- C8 witness: stored highs {2026-10-11 ↦ 14, 2026-10-12 ↦ 20}, input
20 for today: difference 6 classifies as "Much warmer than yesterday". -/
theorem c8_temp_comparison_witness :
    lookupHigh [("2026-10-11", 14), ("2026-10-12", 20)] "2026-10-12" = some 20 ∧
    (20 : ℚ) ≠ 0 ∧
    lookupHigh [("2026-10-11", 14), ("2026-10-12", 20)] "2026-10-11" = some 14 ∧
    computeTempComparison "2026-10-12" "2026-10-11" (some 20)
      [("2026-10-11", 14), ("2026-10-12", 20)] =
      (some "Much warmer than yesterday", [("2026-10-11", 14), ("2026-10-12", 20)]) := by
  refine ⟨rfl, by norm_num, rfl, ?_⟩
  have h := (c8_temp_comparison "2026-10-12" "2026-10-11" 20 14
    [("2026-10-11", 14), ("2026-10-12", 20)]).1 rfl (by norm_num) rfl
  rw [h, show (20 : ℚ) - 14 = 6 by norm_num,
    abs_of_nonneg (by norm_num : (0 : ℚ) ≤ 6)]
  norm_num

/-- C6: the weather source is required — a weather failure rethrows with
a message identifying it — while any calendar or LLM outcome (the inputs
are unconstrained, including thrown errors) still yields a snapshot. -/
theorem c6_required_weather_optional_others (E : Type) (inp : BDInputs E) :
    (∀ msg, inp.weatherResult = Except.error msg →
      buildDashboardData inp = Except.error ("Weather API unavailable: " ++ msg)) ∧
    (∀ wd wst, inp.weatherResult = Except.ok (wd, wst) →
      ∃ r hs, buildDashboardData inp = Except.ok (r, hs)) := by
  constructor
  · intro msg h
    unfold buildDashboardData
    rw [h]
  · intro wd wst h
    unfold buildDashboardData
    rw [h]
    exact ⟨_, _, rfl⟩

/-- A healthy placeholder ServiceStatus for concrete scenarios. -/
def okStatus : ServiceStatus :=
  { name := "X", isEnabled := true, state := .healthy, cacheTTL := 0,
    fetchedAt := none, latency := none, error := none }

/-- Concrete aggregation inputs in which the required weather source has
thrown and both optional sources have also thrown. -/
def inpC6 : BDInputs Unit :=
  { weatherResult := .error "boom"
    calendarResult := .error "cal down"
    calendarStatusOnError := okStatus
    llmResult := .error "llm down"
    llmStatusOnError := okStatus
    llmWorld := { cache := none, statusStore := none, clockIdx := 0 }
    staticSummary := "static"
    todayStr := "2026-10-12"
    yesterdayStr := "2026-10-11"
    dailyHighs := [] }

/-- C6 witness: at `inpC6` the aggregation fails with the message naming
the weather source. -/
theorem c6_required_weather_optional_others_witness :
    inpC6.weatherResult = Except.error "boom" ∧
    buildDashboardData inpC6 = Except.error "Weather API unavailable: boom" :=
  ⟨rfl, (c6_required_weather_optional_others Unit inpC6).1 "boom" rfl⟩

/-- The `llm_source` tag of a finished aggregation run, when any. -/
def llmSourceOf (x : Except String (BDResult E × List (String × ℚ))) :
    Option LlmSource :=
  match x with
  | .ok (r, _) => some r.llm_source
  | .error _ => none

/-- Concrete aggregation inputs in which the LLM service resolves from
its own fresh cache (`result.source = cache`) with a valid summary. -/
def inpC7 : BDInputs Unit :=
  { weatherResult := .ok ({ locations := [] }, okStatus)
    calendarResult := .ok (some [], okStatus)
    calendarStatusOnError := okStatus
    llmResult := .ok (some { daily_summary := "Nice day" }, Source.cache, okStatus)
    llmStatusOnError := okStatus
    llmWorld := { cache := none, statusStore := none, clockIdx := 0 }
    staticSummary := "static"
    todayStr := "2026-10-12"
    yesterdayStr := "2026-10-11"
    dailyHighs := [] }

/-- C7 counterexample: a run in which the LLM service answers from its
fresh cache tags the summary with `llm_source = cache`, which is none of
the three values the claim allows (`api`, `stale_cache`,
`static_fallback`). -/
theorem c7_counterexample_cache_tier :
    llmSourceOf (buildDashboardData inpC7) = some LlmSource.cache ∧
    LlmSource.cache ≠ LlmSource.api ∧
    LlmSource.cache ≠ LlmSource.stale_cache ∧
    LlmSource.cache ≠ LlmSource.static_fallback := by
  refine ⟨rfl, by decide, by decide, by decide⟩

/-- Helper: the LLM fallback chain only ever tags `stale_cache` or
`static_fallback`. -/
theorem llmFallback_source_cases (inp : BDInputs E) (st : ServiceStatus) :
    (llmFallback inp st).2.1 = LlmSource.stale_cache ∨
    (llmFallback inp st).2.1 = LlmSource.static_fallback := by
  unfold llmFallback
  generalize (getCache (fun d => d.isSome) 0 (fun _ => 0) true none inp.llmWorld).1 = x
  rcases x with _ | (_ | i)
  · exact Or.inr rfl
  · exact Or.inr rfl
  · by_cases h : i.daily_summary ≠ "" <;> simp [h]

/-- Helper: with a well-formed LLM result (disabled implies null data),
the summary provenance tag is never `disabled`. -/
theorem llmTriple_source_cases (inp : BDInputs E)
    (hdis : ∀ d st, inp.llmResult = Except.ok (d, Source.disabled, st) → d = none) :
    (llmTriple inp).2.1 = LlmSource.cache ∨ (llmTriple inp).2.1 = LlmSource.api ∨
    (llmTriple inp).2.1 = LlmSource.stale_cache ∨
    (llmTriple inp).2.1 = LlmSource.static_fallback := by
  unfold llmTriple
  rcases hl : inp.llmResult with msg | ⟨insights, src, st⟩
  · rcases llmFallback_source_cases inp inp.llmStatusOnError with hc | hc <;>
      rw [hc] <;> tauto
  · rcases insights with _ | i
    · rcases llmFallback_source_cases inp st with hc | hc <;> rw [hc] <;> tauto
    · by_cases hv : i.daily_summary ≠ "" ∧ (jsTrim i.daily_summary).length > 0
      · simp only [if_pos hv]
        rcases src with _ | _ | _ | _
        · exact Or.inl rfl
        · exact Or.inr (Or.inl rfl)
        · exact Or.inr (Or.inr (Or.inl rfl))
        · exact absurd (hdis _ _ hl) (by simp)
      · simp only [if_neg hv]
        rcases llmFallback_source_cases inp st with hc | hc <;> rw [hc] <;> tauto

/-- C7 (amended): every snapshot carries an `llm_source` tag, and it is
one of exactly `cache`, `api`, `stale_cache`, `static_fallback`: never
`disabled` (a disabled LLM service returns null data, per the hypothesis,
and null data routes to the fallback chain) and never unset. -/
theorem c7_llm_source_provenance (E : Type) (inp : BDInputs E)
    (r : BDResult E) (hs : List (String × ℚ))
    (hdis : ∀ d st, inp.llmResult = Except.ok (d, Source.disabled, st) → d = none)
    (h : buildDashboardData inp = Except.ok (r, hs)) :
    r.llm_source = LlmSource.cache ∨ r.llm_source = LlmSource.api ∨
    r.llm_source = LlmSource.stale_cache ∨
    r.llm_source = LlmSource.static_fallback := by
  unfold buildDashboardData at h
  rcases hw : inp.weatherResult with msg | ⟨wd, wst⟩
  · rw [hw] at h
    exact absurd h (by simp)
  · rw [hw] at h
    have hr : (llmTriple inp).2.1 = r.llm_source :=
      congrArg (fun p => (p.1).llm_source) (Except.ok.inj h)
    rw [← hr]
    exact llmTriple_source_cases inp hdis

/-- C7 witness: the amended theorem applied at `inpC7`, where the tag is
`cache`. -/
theorem c7_llm_source_provenance_witness :
    buildDashboardData inpC7 =
      Except.ok ({ temp_comparison := none, calendar_events := [],
                   daily_summary := "Nice day", llm_source := .cache,
                   weatherStatus := okStatus, llmStatus := okStatus,
                   calendarStatus := okStatus }, []) ∧
    (LlmSource.cache = LlmSource.cache ∨ LlmSource.cache = LlmSource.api ∨
     LlmSource.cache = LlmSource.stale_cache ∨
     LlmSource.cache = LlmSource.static_fallback) :=
  ⟨rfl, c7_llm_source_provenance Unit inpC7 _ []
    (by intro d st h; simp [inpC7] at h) rfl⟩

/-! Evaluation lemmas for `getCache`, `afterLoop` and `fetchLoop`. -/

/-- A matching-or-absent signature never blocks the cache lookup. -/
theorem sig_matches_no_block {sig esig : Option String}
    (h : sig = none ∨ esig = sig) :
    ¬ (truthyStr sig = true ∧ esig ≠ sig) := by
  rcases h with h | h
  · subst h
    simp [truthyStr]
  · simp [h]

/-- A fresh cache lookup on a valid, matching, unexpired entry hits. -/
theorem getCache_fresh_hit (truthy : T → Bool) (cacheTTL : Nat) (c : Nat → Nat)
    (sig : Option String) (w : World T) (e : CacheEntry T)
    (hc : w.cache = some e) (hd : truthy e.data = true)
    (hsig : ¬ (truthyStr sig = true ∧ e.signature ≠ sig))
    (hfresh : (c w.clockIdx : Int) - (e.fetchedAt : Int) < (cacheTTL : Int)) :
    getCache truthy cacheTTL c false sig w = (some e.data, tick w) := by
  unfold getCache
  rw [hc]
  simp [hd, hsig, hfresh]

/-- A fresh cache lookup on a valid, matching but expired entry misses,
consuming the clock read. -/
theorem getCache_fresh_expired (truthy : T → Bool) (cacheTTL : Nat) (c : Nat → Nat)
    (sig : Option String) (w : World T) (e : CacheEntry T)
    (hc : w.cache = some e) (hd : truthy e.data = true)
    (hsig : ¬ (truthyStr sig = true ∧ e.signature ≠ sig))
    (hexp : (cacheTTL : Int) ≤ (c w.clockIdx : Int) - (e.fetchedAt : Int)) :
    getCache truthy cacheTTL c false sig w = (none, tick w) := by
  unfold getCache
  rw [hc]
  simp [hd, hsig, not_lt.mpr hexp]

/-- A stale cache lookup on a valid, matching entry hits without reading
the clock. -/
theorem getCache_stale_hit (truthy : T → Bool) (cacheTTL : Nat) (c : Nat → Nat)
    (sig : Option String) (w : World T) (e : CacheEntry T)
    (hc : w.cache = some e) (hd : truthy e.data = true)
    (hsig : ¬ (truthyStr sig = true ∧ e.signature ≠ sig)) :
    getCache truthy cacheTTL c true sig w = (some e.data, w) := by
  unfold getCache
  rw [hc]
  simp [hd, hsig]

/-- A lookup with a truthy signature that the entry does not carry misses
without reading the clock. -/
theorem getCache_sig_mismatch (truthy : T → Bool) (cacheTTL : Nat) (c : Nat → Nat)
    (allowStale : Bool) (s : String) (w : World T) (e : CacheEntry T)
    (hc : w.cache = some e) (hsg : s ≠ "") (hne : e.signature ≠ some s) :
    getCache truthy cacheTTL c allowStale (some s) w = (none, w) := by
  unfold getCache
  rw [hc]
  by_cases hd : truthy e.data = false
  · simp [hd]
  · have ht : truthyStr (some s) = true := by simp [truthyStr, hsg]
    simp [hd, ht, hne]

/-- A lookup with no entry misses without reading the clock. -/
theorem getCache_empty (truthy : T → Bool) (cacheTTL : Nat) (c : Nat → Nat)
    (allowStale : Bool) (sig : Option String) (w : World T)
    (hc : w.cache = none) :
    getCache truthy cacheTTL c allowStale sig w = (none, w) := by
  unfold getCache
  rw [hc]

/-- The stale lookup never changes the world. -/
theorem getCache_stale_snd (truthy : T → Bool) (cacheTTL : Nat) (c : Nat → Nat)
    (sig : Option String) (w : World T) :
    (getCache truthy cacheTTL c true sig w).2 = w := by
  unfold getCache
  rcases hc : w.cache with _ | e
  · rfl
  · simp only [hc]
    split_ifs <;> rfl

/-- Any lookup leaves the world unchanged or merely advances the clock. -/
theorem getCache_snd_or (truthy : T → Bool) (cacheTTL : Nat) (c : Nat → Nat)
    (allowStale : Bool) (sig : Option String) (w : World T) :
    (getCache truthy cacheTTL c allowStale sig w).2 = w ∨
    (getCache truthy cacheTTL c allowStale sig w).2 = tick w := by
  unfold getCache
  split
  · exact Or.inl rfl
  · split_ifs <;> simp

/-- Any lookup keeps the cache slot and advances the clock index by at
most one. -/
theorem getCache_snd_shape (truthy : T → Bool) (cacheTTL : Nat) (c : Nat → Nat)
    (allowStale : Bool) (sig : Option String) (w : World T) :
    (getCache truthy cacheTTL c allowStale sig w).2.cache = w.cache ∧
    (getCache truthy cacheTTL c allowStale sig w).2.statusStore = w.statusStore ∧
    w.clockIdx ≤ (getCache truthy cacheTTL c allowStale sig w).2.clockIdx ∧
    (getCache truthy cacheTTL c allowStale sig w).2.clockIdx ≤ w.clockIdx + 1 := by
  rcases getCache_snd_or truthy cacheTTL c allowStale sig w with h | h <;> rw [h]
  · exact ⟨rfl, rfl, Nat.le_refl _, Nat.le_succ _⟩
  · exact ⟨rfl, rfl, Nat.le_succ _, Nat.le_refl _⟩

/-- `afterLoop` reports exactly the number of attempts it is given. -/
theorem afterLoop_calls (svc : Svc T C) (c : Nat → Nat) (sig : Option String)
    (st0 : StatusRec) (calls : Nat) (lastErr : Option String) (w : World T) :
    (afterLoop svc c sig st0 calls lastErr w).fetchCalls = calls := by
  unfold afterLoop
  rcases lastErr with _ | msg
  · rfl
  · rcases hg : getCache svc.truthy svc.cacheTTL c true sig w with ⟨o, w1⟩
    rcases o with _ | v <;> rfl

/-- `afterLoop` never touches the cache slot or the clock. -/
theorem afterLoop_world (svc : Svc T C) (c : Nat → Nat) (sig : Option String)
    (st0 : StatusRec) (calls : Nat) (lastErr : Option String) (w : World T) :
    (afterLoop svc c sig st0 calls lastErr w).world.cache = w.cache ∧
    (afterLoop svc c sig st0 calls lastErr w).world.clockIdx = w.clockIdx := by
  unfold afterLoop
  rcases lastErr with _ | msg
  · exact ⟨rfl, rfl⟩
  · have hsnd := getCache_stale_snd svc.truthy svc.cacheTTL c sig w
    rcases hg : getCache svc.truthy svc.cacheTTL c true sig w with ⟨o, w1⟩
    rw [hg] at hsnd
    have hw1 : w1 = w := hsnd
    subst hw1
    rcases o with _ | v <;> exact ⟨rfl, rfl⟩

/-- `afterLoop` never resolves with `source = cache`. -/
theorem afterLoop_not_cache (svc : Svc T C) (c : Nat → Nat) (sig : Option String)
    (st0 : StatusRec) (calls : Nat) (lastErr : Option String) (w : World T)
    (d : Option T) (st : ServiceStatus) :
    (afterLoop svc c sig st0 calls lastErr w).result ≠
      Except.ok (d, Source.cache, st) := by
  unfold afterLoop
  rcases lastErr with _ | msg
  · simp
  · rcases hg : getCache svc.truthy svc.cacheTTL c true sig w with ⟨o, w1⟩
    rcases o with _ | v <;> simp

/-- When every attempt in the window fails, the retry loop runs to
exhaustion, carrying the last error message and one clock read per
attempt. -/
theorem fetchLoop_all_fail (svc : Svc T C) (c : Nat → Nat) (cfg : C)
    (sig : Option String) (st0 : StatusRec) (m : Nat → String) :
    ∀ fuel, 1 ≤ fuel → ∀ attempt lastErr w,
      (∀ i, i < fuel → svc.fetch cfg (attempt + i) = .error (m (attempt + i))) →
      fetchLoop svc c cfg sig st0 fuel attempt lastErr w =
        afterLoop svc c sig st0 (attempt + fuel) (some (m (attempt + fuel - 1)))
          { w with clockIdx := w.clockIdx + fuel } := by
  intro fuel
  induction fuel with
  | zero => omega
  | succ n ih =>
    intro _ attempt lastErr w hfail
    have h0 : svc.fetch cfg attempt = .error (m attempt) := by
      simpa using hfail 0 (by omega)
    simp only [fetchLoop, h0]
    cases n with
    | zero =>
      simp [fetchLoop, tick]
    | succ k =>
      rw [ih (by omega) (attempt + 1) (some (m attempt)) (tick w)
        (fun i hi => by
          have h := hfail (i + 1) (by omega)
          rw [show attempt + 1 + i = attempt + (i + 1) by omega]
          exact h)]
      have e1 : attempt + 1 + (k + 1) = attempt + (k + 1 + 1) := by omega
      have e3 : ({ tick w with clockIdx := (tick w).clockIdx + (k + 1) } : World T)
          = { w with clockIdx := w.clockIdx + (k + 1 + 1) } := by
        simp [tick]
        omega
      rw [e1, e3]

/-- The retry loop never resolves with `source = cache`. -/
theorem fetchLoop_not_cache (svc : Svc T C) (c : Nat → Nat) (cfg : C)
    (sig : Option String) (st0 : StatusRec) :
    ∀ fuel attempt lastErr w (d : Option T) (st : ServiceStatus),
      (fetchLoop svc c cfg sig st0 fuel attempt lastErr w).result ≠
        Except.ok (d, Source.cache, st) := by
  intro fuel
  induction fuel with
  | zero =>
    intro attempt lastErr w d st
    simp only [fetchLoop]
    exact afterLoop_not_cache svc c sig st0 attempt lastErr w d st
  | succ n ih =>
    intro attempt lastErr w d st
    simp only [fetchLoop]
    rcases hf : svc.fetch cfg attempt with e | v
    · exact ih (attempt + 1) (some e) (tick w) d st
    · simp

/-- Evaluation of `afterLoop` on a usable stale entry. -/
theorem afterLoop_stale_eval (svc : Svc T C) (c : Nat → Nat) (sig : Option String)
    (st0 : StatusRec) (calls : Nat) (msg : String) (w : World T) (e : CacheEntry T)
    (hc : w.cache = some e) (hd : svc.truthy e.data = true)
    (hsig : ¬ (truthyStr sig = true ∧ e.signature ≠ sig)) :
    afterLoop svc c sig st0 calls (some msg) w =
      { result := Except.ok (some e.data, Source.stale_cache,
          getStatus svc { st0 with state := .degraded, error := some msg }
            (saveStatus { st0 with state := .degraded, error := some msg } w))
        world := saveStatus { st0 with state := .degraded, error := some msg } w
        fetchCalls := calls } := by
  have hhit := getCache_stale_hit svc.truthy svc.cacheTTL c sig w e hc hd hsig
  unfold afterLoop
  rw [hhit]

/-- Evaluation of `afterLoop` with no usable stale entry. -/
theorem afterLoop_no_stale_eval (svc : Svc T C) (c : Nat → Nat) (sig : Option String)
    (st0 : StatusRec) (calls : Nat) (msg : String) (w : World T)
    (hmiss : getCache svc.truthy svc.cacheTTL c true sig w = (none, w)) :
    afterLoop svc c sig st0 calls (some msg) w =
      { result := Except.error msg
        world := saveStatus { state := .unhealthy, latency := none, error := some msg } w
        fetchCalls := calls } := by
  unfold afterLoop
  rw [hmiss]

/-- Once the retry loop starts, `fetchData` is invoked at least once. -/
theorem fetchLoop_calls_ge (svc : Svc T C) (c : Nat → Nat) (cfg : C)
    (sig : Option String) (st0 : StatusRec) :
    ∀ fuel, 1 ≤ fuel → ∀ attempt lastErr w,
      attempt + 1 ≤ (fetchLoop svc c cfg sig st0 fuel attempt lastErr w).fetchCalls := by
  intro fuel
  induction fuel with
  | zero => omega
  | succ n ih =>
    intro _ attempt lastErr w
    simp only [fetchLoop]
    rcases hf : svc.fetch cfg attempt with e | v
    · show attempt + 1 ≤
        (fetchLoop svc c cfg sig st0 n (attempt + 1) (some e) (tick w)).fetchCalls
      cases n with
      | zero =>
        simp only [fetchLoop]
        rw [afterLoop_calls]
      | succ k =>
        have h := ih (by omega) (attempt + 1) (some e) (tick w)
        omega
    · simp

/-! The claims about `getData`. -/

/-- C1 (amended): when the service is enabled and a cache entry with
truthy data exists whose age is strictly below the TTL and whose
signature matches the computed signature (or the computed signature is
null), `getData` resolves with the cached data, `source = cache` and a
healthy state, invokes `fetchData` zero times, and persists the loaded
status — so the persisted latency is left unchanged **except** that a
stored latency of exactly 0 is falsy for the `||` in `loadStatus` and is
cleared to null. -/
theorem c1_fresh_cache_hit (T C : Type) (svc : Svc T C) (c : Nat → Nat) (cfg : C)
    (w : World T) (e : CacheEntry T)
    (hen : svc.isEnabled = true)
    (hc : w.cache = some e)
    (hd : svc.truthy e.data = true)
    (hsig : svc.getCacheSignature cfg = none ∨ e.signature = svc.getCacheSignature cfg)
    (hfresh : (c w.clockIdx : Int) - (e.fetchedAt : Int) < (svc.cacheTTL : Int)) :
    (getData svc c cfg w).fetchCalls = 0 ∧
    (∃ st, (getData svc c cfg w).result =
        Except.ok (some e.data, Source.cache, st) ∧
      st.state = ServiceState.healthy) ∧
    (getData svc c cfg w).world.statusStore =
      some { state := ServiceState.healthy
             latency := (loadStatus freshStatus w.statusStore).latency
             error := (loadStatus freshStatus w.statusStore).error } := by
  have hhit := getCache_fresh_hit svc.truthy svc.cacheTTL c (svc.getCacheSignature cfg)
    w e hc hd (sig_matches_no_block hsig) hfresh
  have hrun : getData svc c cfg w =
      { result := Except.ok (some e.data, Source.cache,
          getStatus svc
            { loadStatus freshStatus w.statusStore with state := .healthy }
            (saveStatus { loadStatus freshStatus w.statusStore with state := .healthy }
              (tick w)))
        world := saveStatus
          { loadStatus freshStatus w.statusStore with state := .healthy } (tick w)
        fetchCalls := 0 } := by
    simp only [getData]
    rw [hen, hhit]
    rfl
  rw [hrun]
  refine ⟨rfl, ⟨_, rfl, ?_⟩, by simp [saveStatus]⟩
  simp [getStatus, loadStatus, saveStatus]

/-- C2: when the service is enabled (and the constructor guarantees at
least one attempt), a computed signature that is a nonempty string
different from the one stored in the cache entry prevents a fresh cache
hit: `getData` invokes `fetchData` at least once and never resolves with
`source = cache`. -/
theorem c2_signature_mismatch_forces_fetch (T C : Type) (svc : Svc T C)
    (c : Nat → Nat) (cfg : C) (w : World T) (e : CacheEntry T) (s : String)
    (hen : svc.isEnabled = true)
    (hra : 1 ≤ svc.retryAttempts)
    (hc : w.cache = some e)
    (hsig : svc.getCacheSignature cfg = some s)
    (hs : s ≠ "")
    (hne : e.signature ≠ some s) :
    1 ≤ (getData svc c cfg w).fetchCalls ∧
    (∀ d st, (getData svc c cfg w).result ≠ Except.ok (d, Source.cache, st)) := by
  have hmiss : getCache svc.truthy svc.cacheTTL c false (svc.getCacheSignature cfg) w
      = (none, w) := by
    rw [hsig]
    exact getCache_sig_mismatch svc.truthy svc.cacheTTL c false s w e hc hs hne
  have hrun : getData svc c cfg w =
      fetchLoop svc c cfg (svc.getCacheSignature cfg)
        (loadStatus freshStatus w.statusStore) svc.retryAttempts 0 none w := by
    simp only [getData]
    rw [hen, hmiss]
    rfl
  rw [hrun]
  constructor
  · have h := fetchLoop_calls_ge svc c cfg (svc.getCacheSignature cfg)
      (loadStatus freshStatus w.statusStore) svc.retryAttempts hra 0 none w
    simpa using h
  · intro d st
    exact fetchLoop_not_cache svc c cfg (svc.getCacheSignature cfg)
      (loadStatus freshStatus w.statusStore) svc.retryAttempts 0 none w d st

/-- C3 (amended): when the service is enabled, a cache entry with truthy
data exists whose signature matches (or none is computed) but whose age
has reached the TTL, and every one of the `retryAttempts` fetch attempts
throws, `getData` resolves (does not throw) with the stale data,
`source = stale_cache`, state degraded, and the last failure message as
error; the persisted latency is the loaded one — unchanged **except**
that a stored latency of exactly 0 is cleared to null by `loadStatus`. -/
theorem c3_stale_cache_fallback (T C : Type) (svc : Svc T C) (c : Nat → Nat)
    (cfg : C) (w : World T) (e : CacheEntry T) (m : Nat → String)
    (hen : svc.isEnabled = true)
    (hra : 1 ≤ svc.retryAttempts)
    (hc : w.cache = some e)
    (hd : svc.truthy e.data = true)
    (hsig : svc.getCacheSignature cfg = none ∨ e.signature = svc.getCacheSignature cfg)
    (hstale : (svc.cacheTTL : Int) ≤ (c w.clockIdx : Int) - (e.fetchedAt : Int))
    (hfail : ∀ i, i < svc.retryAttempts → svc.fetch cfg i = .error (m i)) :
    (∃ st, (getData svc c cfg w).result =
        Except.ok (some e.data, Source.stale_cache, st) ∧
      st.state = ServiceState.degraded ∧
      st.error = some (m (svc.retryAttempts - 1))) ∧
    (getData svc c cfg w).world.statusStore =
      some { state := ServiceState.degraded
             latency := (loadStatus freshStatus w.statusStore).latency
             error := some (m (svc.retryAttempts - 1)) } := by
  have hmiss := getCache_fresh_expired svc.truthy svc.cacheTTL c
    (svc.getCacheSignature cfg) w e hc hd (sig_matches_no_block hsig) hstale
  have hA : getData svc c cfg w =
      fetchLoop svc c cfg (svc.getCacheSignature cfg)
        (loadStatus freshStatus w.statusStore) svc.retryAttempts 0 none (tick w) := by
    simp only [getData]
    rw [hen, hmiss]
    rfl
  have hloop := fetchLoop_all_fail svc c cfg (svc.getCacheSignature cfg)
    (loadStatus freshStatus w.statusStore) m svc.retryAttempts hra 0 none (tick w)
    (fun i hi => by simpa using hfail i hi)
  simp only [Nat.zero_add] at hloop
  have hstaleEval := afterLoop_stale_eval svc c (svc.getCacheSignature cfg)
    (loadStatus freshStatus w.statusStore) svc.retryAttempts
    (m (svc.retryAttempts - 1))
    ({ tick w with clockIdx := (tick w).clockIdx + svc.retryAttempts }) e
    hc hd (sig_matches_no_block hsig)
  rw [hA, hloop, hstaleEval]
  refine ⟨⟨_, rfl, ?_, ?_⟩, by simp [saveStatus]⟩
  · simp [getStatus, loadStatus, saveStatus]
  · simp [getStatus, loadStatus, saveStatus, ite_self]

/-- C4: when the service is enabled, every one of the `retryAttempts`
fetch attempts throws, and no cache entry exists for the key (or a
nonempty computed signature matches no entry), `getData` rejects with the
last failure message, having first persisted state unhealthy, null
latency and that message. -/
theorem c4_no_cache_throws (T C : Type) (svc : Svc T C) (c : Nat → Nat)
    (cfg : C) (w : World T) (m : Nat → String)
    (hen : svc.isEnabled = true)
    (hra : 1 ≤ svc.retryAttempts)
    (hnc : w.cache = none ∨
      ∃ s, svc.getCacheSignature cfg = some s ∧ s ≠ "" ∧
        (∀ e, w.cache = some e → e.signature ≠ some s))
    (hfail : ∀ i, i < svc.retryAttempts → svc.fetch cfg i = .error (m i)) :
    (getData svc c cfg w).result = Except.error (m (svc.retryAttempts - 1)) ∧
    (getData svc c cfg w).world.statusStore =
      some { state := ServiceState.unhealthy
             latency := none
             error := some (m (svc.retryAttempts - 1)) } := by
  have hmissAny : ∀ (allowStale : Bool) (wx : World T), wx.cache = w.cache →
      getCache svc.truthy svc.cacheTTL c allowStale (svc.getCacheSignature cfg) wx
        = (none, wx) := by
    intro allowStale wx hwx
    rcases hnc with h | ⟨s, hs1, hs2, hs3⟩
    · exact getCache_empty svc.truthy svc.cacheTTL c allowStale
        (svc.getCacheSignature cfg) wx (hwx.trans h)
    · rcases hcc : wx.cache with _ | e
      · exact getCache_empty svc.truthy svc.cacheTTL c allowStale
          (svc.getCacheSignature cfg) wx hcc
      · rw [hs1]
        exact getCache_sig_mismatch svc.truthy svc.cacheTTL c allowStale s wx e hcc
          hs2 (hs3 e (hwx ▸ hcc))
  have hA : getData svc c cfg w =
      fetchLoop svc c cfg (svc.getCacheSignature cfg)
        (loadStatus freshStatus w.statusStore) svc.retryAttempts 0 none w := by
    simp only [getData]
    rw [hen, hmissAny false w rfl]
    rfl
  have hloop := fetchLoop_all_fail svc c cfg (svc.getCacheSignature cfg)
    (loadStatus freshStatus w.statusStore) m svc.retryAttempts hra 0 none w
    (fun i hi => by simpa using hfail i hi)
  simp only [Nat.zero_add] at hloop
  have hend := afterLoop_no_stale_eval svc c (svc.getCacheSignature cfg)
    (loadStatus freshStatus w.statusStore) svc.retryAttempts
    (m (svc.retryAttempts - 1)) ({ w with clockIdx := w.clockIdx + svc.retryAttempts })
    (hmissAny true _ rfl)
  rw [hA, hloop, hend]
  exact ⟨rfl, by simp [saveStatus]⟩

/-- The retry loop advances the clock and only writes cache entries whose
timestamp is at least every previously stored one (non-decreasing clock). -/
theorem fetchLoop_world_mono (svc : Svc T C) (c : Nat → Nat) (cfg : C)
    (sig : Option String) (st0 : StatusRec)
    (hmono : ∀ i j, i ≤ j → c i ≤ c j) :
    ∀ fuel attempt lastErr w,
      (∀ e, w.cache = some e → e.fetchedAt ≤ c w.clockIdx) →
      w.clockIdx ≤ (fetchLoop svc c cfg sig st0 fuel attempt lastErr w).world.clockIdx ∧
      (∀ e', (fetchLoop svc c cfg sig st0 fuel attempt lastErr w).world.cache = some e' →
        e'.fetchedAt ≤ c (fetchLoop svc c cfg sig st0 fuel attempt lastErr w).world.clockIdx ∧
        (∀ e, w.cache = some e → e.fetchedAt ≤ e'.fetchedAt)) := by
  intro fuel
  induction fuel with
  | zero =>
    intro attempt lastErr w hwt
    simp only [fetchLoop]
    obtain ⟨hcac, hidx⟩ := afterLoop_world svc c sig st0 attempt lastErr w
    rw [hcac, hidx]
    refine ⟨Nat.le_refl _, fun e' he' => ⟨hwt e' he', fun e he => ?_⟩⟩
    have hee : e = e' := by
      rw [he] at he'
      exact Option.some.inj he'
    exact hee ▸ Nat.le_refl _
  | succ n ih =>
    intro attempt lastErr w hwt
    simp only [fetchLoop]
    rcases hf : svc.fetch cfg attempt with er | d
    · have hwt' : ∀ e, (tick w).cache = some e → e.fetchedAt ≤ c (tick w).clockIdx :=
        fun e he => Nat.le_trans (hwt e he) (hmono _ _ (Nat.le_succ _))
      have h := ih (attempt + 1) (some er) (tick w) hwt'
      exact ⟨Nat.le_trans (Nat.le_succ w.clockIdx) h.1,
             fun e' he' => ⟨(h.2 e' he').1, fun e he => (h.2 e' he').2 e he⟩⟩
    · refine ⟨by simp only [saveStatus, setCache, tick]; omega, ?_⟩
      intro e' he'
      rcases e' with ⟨ed, efa, esig⟩
      simp only [saveStatus, setCache, tick, Option.some.injEq, CacheEntry.mk.injEq] at he'
      obtain ⟨h1, h2, h3⟩ := he'
      constructor
      · simp only [saveStatus, setCache, tick]
        rw [← h2]
        exact hmono _ _ (by omega)
      · intro e he
        rw [← h2]
        exact Nat.le_trans (hwt e he) (hmono _ _ (by omega))

/-- C9: over one `getData` call with a non-decreasing clock, and a cache
entry whose stamp is not ahead of the clock, the stored `fetchedAt` never
regresses: any entry present afterwards carries a timestamp at least that
of the entry present before, and the invariant that the stamp is not
ahead of the clock is preserved (which is what lets the argument chain
across successive operations). -/
theorem c9_fetchedAt_monotonic (T C : Type) (svc : Svc T C) (c : Nat → Nat)
    (cfg : C) (w : World T)
    (hmono : ∀ i j, i ≤ j → c i ≤ c j)
    (hwt : ∀ e, w.cache = some e → e.fetchedAt ≤ c w.clockIdx) :
    w.clockIdx ≤ (getData svc c cfg w).world.clockIdx ∧
    (∀ e', (getData svc c cfg w).world.cache = some e' →
      e'.fetchedAt ≤ c (getData svc c cfg w).world.clockIdx ∧
      (∀ e, w.cache = some e → e.fetchedAt ≤ e'.fetchedAt)) := by
  simp only [getData]
  by_cases hen : svc.isEnabled = false
  · rw [if_pos hen]
    constructor
    · exact Nat.le_refl _
    · intro e' he'
      have he'w : w.cache = some e' := he'
      refine ⟨hwt e' he'w, fun e he => ?_⟩
      have hee : e = e' := by
        rw [he] at he'w
        exact Option.some.inj he'w
      exact hee ▸ Nat.le_refl _
  · rw [if_neg hen]
    have hshape := getCache_snd_shape svc.truthy svc.cacheTTL c false
      (svc.getCacheSignature cfg) w
    rcases hg : getCache svc.truthy svc.cacheTTL c false (svc.getCacheSignature cfg) w
      with ⟨o, w1⟩
    rw [hg] at hshape
    obtain ⟨hcac, _, hlo, hhi⟩ := hshape
    rcases o with _ | d
    · have hwt1 : ∀ e, w1.cache = some e → e.fetchedAt ≤ c w1.clockIdx := by
        intro e he
        exact Nat.le_trans (hwt e (hcac ▸ he)) (hmono _ _ hlo)
      have h := fetchLoop_world_mono svc c cfg (svc.getCacheSignature cfg)
        (loadStatus freshStatus w.statusStore) hmono svc.retryAttempts 0 none w1 hwt1
      constructor
      · exact Nat.le_trans hlo h.1
      · intro e' he'
        refine ⟨(h.2 e' he').1, fun e he => ?_⟩
        refine (h.2 e' he').2 e ?_
        rw [hcac]
        exact he
    · constructor
      · exact hlo
      · intro e' he'
        have he'1 : w1.cache = some e' := he'
        have he'w : w.cache = some e' := by
          rw [← hcac]
          exact he'1
        refine ⟨Nat.le_trans (hwt e' he'w) (hmono _ _ hlo), fun e he => ?_⟩
        have hee : e = e' := by
          rw [he] at he'w
          exact Option.some.inj he'w
        exact hee ▸ Nat.le_refl _

/-! Concrete scenarios for the claims about `getData`. -/

/-- A concrete enabled service over Nat data whose fetch always throws
with message "boom". -/
def svcFail : Svc Nat Unit :=
  { name := "Weather", cacheTTL := 1000, retryAttempts := 3, retryCooldown := 1000,
    isEnabled := true, truthy := fun _ => true, fetch := fun _ _ => .error "boom",
    getCacheSignature := fun _ => none }

/-- A variant of `svcFail` whose fetch succeeds with value 7 and whose
TTL is short. -/
def svcOkFetch : Svc Nat Unit :=
  { svcFail with fetch := fun _ _ => .ok 7, cacheTTL := 10 }

/-- A variant of `svcFail` computing the signature "loc2". -/
def svcSig : Svc Nat Unit :=
  { svcFail with getCacheSignature := fun _ => some "loc2" }

/-- A cache entry holding the value 5, stamped at time 0, no signature. -/
def entry5 : CacheEntry Nat := { data := 5, fetchedAt := 0, signature := none }

/-- A cache entry stamped at time 50 with no signature. -/
def entry50 : CacheEntry Nat := { data := 5, fetchedAt := 50, signature := none }

/-- A cache entry carrying the signature "loc1". -/
def entrySig : CacheEntry Nat := { data := 5, fetchedAt := 0, signature := some "loc1" }

/-- State with `entry5` cached and a saved healthy status of latency 7. -/
def wFresh : World Nat :=
  { cache := some entry5,
    statusStore := some { state := .healthy, latency := some 7, error := none },
    clockIdx := 0 }

/-- State with `entry5` cached and a saved healthy status whose latency
is exactly 0 (a perfectly possible measured latency). -/
def wZeroLat : World Nat :=
  { cache := some entry5,
    statusStore := some { state := .healthy, latency := some 0, error := none },
    clockIdx := 0 }

/-- State with the signed entry cached and no saved status. -/
def wSig : World Nat := { cache := some entrySig, statusStore := none, clockIdx := 0 }

/-- State with `entry50` cached and no saved status. -/
def wNine : World Nat := { cache := some entry50, statusStore := none, clockIdx := 0 }

/-- Empty state: no cache entry, no saved status. -/
def wEmpty : World Nat := { cache := none, statusStore := none, clockIdx := 0 }

/-- C1 counterexample: a fresh cache hit (clock 100, entry stamped 0,
TTL 1000) with a persisted latency of exactly 0.  The hit path reloads
the status through JS `||`, drops the falsy 0, and persists latency null:
the persisted latency field is **changed** from 0 to null, refuting the
claim that it is left unchanged. -/
theorem c1_counterexample_zero_latency :
    wZeroLat.statusStore =
      some { state := .healthy, latency := some 0, error := none } ∧
    (getData svcFail (fun _ => 100) () wZeroLat).fetchCalls = 0 ∧
    (getData svcFail (fun _ => 100) () wZeroLat).result =
      Except.ok (some 5, Source.cache,
        { name := "Weather", isEnabled := true, state := .healthy, cacheTTL := 1000,
          fetchedAt := none, latency := none, error := none }) ∧
    (getData svcFail (fun _ => 100) () wZeroLat).world.statusStore =
      some { state := .healthy, latency := none, error := none } ∧
    some (0 : Int) ≠ (none : Option Int) :=
  ⟨rfl, rfl, rfl, rfl, by decide⟩

/-- C1 witness: the amended theorem at the concrete fresh-hit scenario
with saved latency 7, which is preserved. -/
theorem c1_fresh_cache_hit_witness :
    svcFail.isEnabled = true ∧
    wFresh.cache = some entry5 ∧
    svcFail.truthy entry5.data = true ∧
    (svcFail.getCacheSignature () = none ∨
      entry5.signature = svcFail.getCacheSignature ()) ∧
    (((fun _ => 100) wFresh.clockIdx : Int) - (entry5.fetchedAt : Int)
      < (svcFail.cacheTTL : Int)) ∧
    ((getData svcFail (fun _ => 100) () wFresh).fetchCalls = 0 ∧
     (∃ st, (getData svcFail (fun _ => 100) () wFresh).result =
         Except.ok (some entry5.data, Source.cache, st) ∧
       st.state = ServiceState.healthy) ∧
     (getData svcFail (fun _ => 100) () wFresh).world.statusStore =
       some { state := ServiceState.healthy
              latency := (loadStatus freshStatus wFresh.statusStore).latency
              error := (loadStatus freshStatus wFresh.statusStore).error }) :=
  ⟨rfl, rfl, rfl, Or.inl rfl, by decide,
   c1_fresh_cache_hit Nat Unit svcFail (fun _ => 100) () wFresh entry5
     rfl rfl rfl (Or.inl rfl) (by decide)⟩

/-- C2 witness: the theorem at the concrete mismatched-signature
scenario ("loc2" computed, "loc1" cached). -/
theorem c2_signature_mismatch_forces_fetch_witness :
    svcSig.isEnabled = true ∧
    1 ≤ svcSig.retryAttempts ∧
    wSig.cache = some entrySig ∧
    svcSig.getCacheSignature () = some "loc2" ∧
    ("loc2" : String) ≠ "" ∧
    entrySig.signature ≠ some "loc2" ∧
    (1 ≤ (getData svcSig (fun _ => 100) () wSig).fetchCalls ∧
     (∀ d st, (getData svcSig (fun _ => 100) () wSig).result ≠
        Except.ok (d, Source.cache, st))) :=
  ⟨rfl, by decide, rfl, rfl, by decide, by decide,
   c2_signature_mismatch_forces_fetch Nat Unit svcSig (fun _ => 100) () wSig
     entrySig "loc2" rfl (by decide) rfl rfl (by decide) (by decide)⟩

/-- C3 counterexample: all three attempts fail, the stale entry is used
(clock 5000, entry stamped 0, TTL 1000), and the persisted latency of
exactly 0 is dropped by the `||` in `loadStatus` and persisted as null:
the latency field is **changed**, refuting "leaves latency unchanged". -/
theorem c3_counterexample_zero_latency :
    wZeroLat.statusStore =
      some { state := .healthy, latency := some 0, error := none } ∧
    (getData svcFail (fun _ => 5000) () wZeroLat).result =
      Except.ok (some 5, Source.stale_cache,
        { name := "Weather", isEnabled := true, state := .degraded, cacheTTL := 1000,
          fetchedAt := none, latency := none, error := some "boom" }) ∧
    (getData svcFail (fun _ => 5000) () wZeroLat).world.statusStore =
      some { state := .degraded, latency := none, error := some "boom" } ∧
    some (0 : Int) ≠ (none : Option Int) :=
  ⟨rfl, rfl, rfl, by decide⟩

/-- C3 witness: the amended theorem at the concrete stale-fallback
scenario with saved latency 7, which is preserved. -/
theorem c3_stale_cache_fallback_witness :
    svcFail.isEnabled = true ∧
    1 ≤ svcFail.retryAttempts ∧
    wFresh.cache = some entry5 ∧
    svcFail.truthy entry5.data = true ∧
    (svcFail.getCacheSignature () = none ∨
      entry5.signature = svcFail.getCacheSignature ()) ∧
    ((svcFail.cacheTTL : Int) ≤
      ((fun _ => 5000) wFresh.clockIdx : Int) - (entry5.fetchedAt : Int)) ∧
    (∀ i, i < svcFail.retryAttempts →
      svcFail.fetch () i = .error ((fun _ => "boom") i)) ∧
    ((∃ st, (getData svcFail (fun _ => 5000) () wFresh).result =
        Except.ok (some 5, Source.stale_cache, st) ∧
      st.state = ServiceState.degraded ∧ st.error = some "boom") ∧
     (getData svcFail (fun _ => 5000) () wFresh).world.statusStore =
       some { state := ServiceState.degraded, latency := some 7,
              error := some "boom" }) :=
  ⟨rfl, by decide, rfl, rfl, Or.inl rfl, by decide, fun i _ => rfl,
   c3_stale_cache_fallback Nat Unit svcFail (fun _ => 5000) () wFresh entry5
     (fun _ => "boom") rfl (by decide) rfl rfl (Or.inl rfl) (by decide)
     (fun i _ => rfl)⟩

/-- C4 witness: the theorem at the concrete empty-cache scenario. -/
theorem c4_no_cache_throws_witness :
    svcFail.isEnabled = true ∧
    1 ≤ svcFail.retryAttempts ∧
    (wEmpty.cache = none ∨
      ∃ s, svcFail.getCacheSignature () = some s ∧ s ≠ "" ∧
        (∀ e, wEmpty.cache = some e → e.signature ≠ some s)) ∧
    (∀ i, i < svcFail.retryAttempts →
      svcFail.fetch () i = .error ((fun _ => "boom") i)) ∧
    ((getData svcFail (fun _ => 100) () wEmpty).result = Except.error "boom" ∧
     (getData svcFail (fun _ => 100) () wEmpty).world.statusStore =
       some { state := ServiceState.unhealthy, latency := none,
              error := some "boom" }) :=
  ⟨rfl, by decide, Or.inl rfl, fun i _ => rfl,
   c4_no_cache_throws Nat Unit svcFail (fun _ => 100) () wEmpty (fun _ => "boom")
     rfl (by decide) (Or.inl rfl) (fun i _ => rfl)⟩

/-- The constant clock used for the monotonicity witness. -/
def clock100 : Nat → Nat := fun _ => 100

/-- C9 witness: the theorem at a concrete expired-entry scenario where a
successful fetch overwrites the entry stamped 50 with one stamped 100. -/
theorem c9_fetchedAt_monotonic_witness :
    (∀ i j, i ≤ j → clock100 i ≤ clock100 j) ∧
    (∀ e, wNine.cache = some e → e.fetchedAt ≤ clock100 wNine.clockIdx) ∧
    (wNine.clockIdx ≤ (getData svcOkFetch clock100 () wNine).world.clockIdx ∧
     (∀ e', (getData svcOkFetch clock100 () wNine).world.cache = some e' →
        e'.fetchedAt ≤
          clock100 (getData svcOkFetch clock100 () wNine).world.clockIdx ∧
        (∀ e, wNine.cache = some e → e.fetchedAt ≤ e'.fetchedAt))) :=
  ⟨fun _ _ _ => Nat.le_refl 100,
   fun e he => by
     have h2 : entry50 = e := Option.some.inj he
     rw [← h2]
     decide,
   c9_fetchedAt_monotonic Nat Unit svcOkFetch clock100 () wNine
     (fun _ _ _ => Nat.le_refl 100)
     (fun e he => by
       have h2 : entry50 = e := Option.some.inj he
       rw [← h2]
       decide)⟩

end Dash
